import Mathlib

/-!
Verification of the perf-runner orchestration engine (Go sources under
`config/`, `runner/`, `coordinator/`, `ssh/`) against its natural-language
specification.  Go data structures and functions are shallowly embedded:

* Go `map[K]V` values are modelled as association lists `List (K × V)`;
  a Go map never holds two bindings for one key, which appears in theorems
  as `NodupKeys` hypotheses on the input lists.
* Go's randomized map iteration order is made explicit: functions that
  `range` over a map take the visiting order as an extra `List String`
  argument, constrained (in theorems) to be a permutation of the map's keys.
* `float64` values are idealized as exact fractions (`FloatQ`); `time.Duration`
  is an `Int` of nanoseconds; fallible Go functions return `Option`/`Except`.
-/

set_option maxHeartbeats 1000000

set_option maxRecDepth 100000

/-! ## Association-list model of Go maps -/

/-- Left-biased choice on options: mirrors "overlay wins, else fall back". -/
def orElseO {α : Type} (a b : Option α) : Option α :=
  match a with
  | some v => some v
  | none => b

/-- Lookup of a key in an association list (Go `m[k]` read, two-result form). -/
def lookupKV {α : Type} (k : String) : List (String × α) → Option α
  | [] => none
  | p :: ps => if p.1 = k then some p.2 else lookupKV k ps

/-- Remove every binding for key `k` (helper for map update). -/
def eraseKey {α : Type} (k : String) : List (String × α) → List (String × α)
  | [] => []
  | p :: ps => if p.1 = k then eraseKey k ps else p :: eraseKey k ps

/-- Go map write `m[k] = v`: the new binding replaces any previous one. -/
def insertKV {α : Type} (k : String) (v : α) (m : List (String × α)) : List (String × α) :=
  (k, v) :: eraseKey k m

/-- Go `for k, v := range src { dst[k] = v }`. -/
def insertAllKV {α : Type} (m src : List (String × α)) : List (String × α) :=
  src.foldl (fun acc p => insertKV p.1 p.2 acc) m

/-- Keys of an association list. -/
def keysOf {α : Type} (m : List (String × α)) : List String :=
  m.map Prod.fst

/-- The list represents a genuine Go map: no key is bound twice. -/
def NodupKeys {α : Type} (m : List (String × α)) : Prop :=
  (keysOf m).Nodup

instance {α : Type} (m : List (String × α)) : Decidable (NodupKeys m) := by
  unfold NodupKeys; infer_instance

instance {ε α : Type} [DecidableEq ε] [DecidableEq α] : DecidableEq (Except ε α) := fun a b => by
  cases a with
  | error e1 =>
    cases b with
    | error e2 =>
      exact if h : e1 = e2 then isTrue (by rw [h])
        else isFalse (by intro hc; injection hc with h2; exact h h2)
    | ok v2 => exact isFalse (by intro hc; exact Except.noConfusion hc)
  | ok v1 =>
    cases b with
    | error e2 => exact isFalse (by intro hc; exact Except.noConfusion hc)
    | ok v2 =>
      exact if h : v1 = v2 then isTrue (by rw [h])
        else isFalse (by intro hc; injection hc with h2; exact h h2)

/-! ## Numeric model of `float64` -/

/-- Exact-fraction idealization of a Go `float64`: value `num / den`.
All constructions in this file keep `den` positive. -/
structure FloatQ where
  num : Int
  den : Nat
deriving DecidableEq

/-- Multiplication by a (power-of-ten) constant, e.g. Go `bw * 1e6`. -/
def FloatQ.mulNat (q : FloatQ) (n : Nat) : FloatQ :=
  ⟨q.num * n, q.den⟩

/-- Division by a (power-of-ten) constant, e.g. Go `bps / 1e6`. -/
def FloatQ.divNat (q : FloatQ) (n : Nat) : FloatQ :=
  ⟨q.num, q.den * n⟩

/-- Go `int(x)` on a float: truncation toward zero. -/
def FloatQ.toIntTrunc (q : FloatQ) : Int :=
  Int.tdiv q.num q.den

/-! ## runner.Config (runner/runner.go) -/

/-- A value stored in a Go `map[string]interface{}` parameter map
(`runner.Config.Args` and friends).  The concrete runners only inspect
`int`, `string`, `bool` and `float64` payloads. -/
inductive GoVal where
  | str (s : String)
  | int (n : Int)
  | bool (b : Bool)
  | float (q : FloatQ)
deriving DecidableEq

/-- Embedding of Go `runner.Config`.  `duration` is `time.Duration` in
nanoseconds; Go `nil` maps are represented by `[]` (indistinguishable from
empty maps for every operation the source performs on them).  The
`StartTime`/`EndTime` style timestamps are not modelled. -/
structure Config where
  duration : Int := 0
  args : List (String × GoVal) := []
  env : List (String × String) := []
  serverArgs : List (String × GoVal) := []
  clientArgs : List (String × GoVal) := []
  serverEnv : List (String × String) := []
  clientEnv : List (String × String) := []
  role : String := ""
  host : String := ""
  targetHost : String := ""
  port : Int := 0
deriving DecidableEq

/-- The role-specific args overlay chosen by the `switch c.Role` in
`GetEffectiveArgs` (Go `nil` for any role other than server/client). -/
def Config.roleArgs (c : Config) : List (String × GoVal) :=
  match c.role with
  | "server" => c.serverArgs
  | "client" => c.clientArgs
  | _ => []

/-- The role-specific env overlay chosen by the `switch c.Role` in
`GetEffectiveEnv`. -/
def Config.roleEnv (c : Config) : List (String × String) :=
  match c.role with
  | "server" => c.serverEnv
  | "client" => c.clientEnv
  | _ => []

/-- Go `(c *Config) GetEffectiveArgs`: copy the general args, then override
with the role-specific args. -/
def Config.GetEffectiveArgs (c : Config) : List (String × GoVal) :=
  insertAllKV (insertAllKV [] c.args) c.roleArgs

/-- Go `(c *Config) GetEffectiveEnv`: copy the general env, then override
with the role-specific env. -/
def Config.GetEffectiveEnv (c : Config) : List (String × String) :=
  insertAllKV (insertAllKV [] c.env) c.roleEnv

/-! ## buildEnvPrefix (runner/runner.go) -/

/-- Ascending order on strings used by Go `sort.Strings` (lexicographic;
for valid UTF-8, byte order and code-point order coincide). -/
def strLeR (a b : String) : Prop := a.toList ≤ b.toList

instance : DecidableRel strLeR :=
  fun a b => inferInstanceAs (Decidable (a.toList ≤ b.toList))

instance : IsTotal String strLeR := ⟨fun a b => le_total a.toList b.toList⟩

instance : IsTrans String strLeR := ⟨fun _ _ _ h1 h2 => le_trans h1 h2⟩

instance : IsAntisymm String strLeR :=
  ⟨fun _ _ h1 h2 => String.ext (le_antisymm h1 h2)⟩

/-- Go `sort.Strings`: sort ascending. -/
def sortStrings (l : List String) : List String :=
  List.insertionSort strLeR l

/-- Single-quote character (written by code point to keep sources plain). -/
def squoteC : Char := Char.ofNat 39

/-- Double-quote character. -/
def dquoteC : Char := Char.ofNat 34

/-- Backtick character. -/
def btickC : Char := Char.ofNat 96

/-- Backslash character. -/
def bslashC : Char := Char.ofNat 92

/-- The character set of Go `strings.ContainsAny(value, " \t\n\"'$`\\")`. -/
def envSpecialChars : List Char :=
  [' ', '\t', '\n', dquoteC, squoteC, '$', btickC, bslashC]

/-- Does the value need shell quoting (space, tab, newline, quote, dollar,
backtick or backslash present)? -/
def needsQuoting (v : String) : Bool :=
  v.toList.any (fun c => envSpecialChars.contains c)

/-- Go `strings.ReplaceAll(value, "'", "'\"'\"'")`. -/
def escSQuote (v : String) : String :=
  String.mk (v.toList.foldr
    (fun c acc =>
      if c = squoteC then squoteC :: dquoteC :: squoteC :: dquoteC :: squoteC :: acc
      else c :: acc) [])

/-- The per-value quoting rule inside buildEnvPrefix: wrap in single quotes
(escaping embedded single quotes) when the value holds a special character. -/
def shellQuoteVal (v : String) : String :=
  if needsQuoting v then String.mk [squoteC] ++ escSQuote v ++ String.mk [squoteC] else v

/-- Go `buildEnvPrefix` (runner/runner.go): empty string for an empty
effective env map, otherwise sorted `KEY=value` pairs joined by single spaces
with one trailing space.  `envOrder` is the order in which Go's map `range`
delivers the keys of the effective env map (sorted away by `sort.Strings`). -/
def buildEnvPfx (config : Config) (envOrder : List String) : String :=
  let effectiveEnv := config.GetEffectiveEnv
  if effectiveEnv.isEmpty then ""
  else
    let keys := sortStrings envOrder
    let envParts := keys.map
      (fun k => k ++ "=" ++ shellQuoteVal ((lookupKV k effectiveEnv).getD ""))
    String.intercalate " " envParts ++ " "

/-- Env-prefix builder written from the specification's words, for the
refinement claim: "lists the effective environment variables in ascending
alphabetical key order as KEY=value pairs separated by single spaces with one
trailing space, single-quoting (with embedded-quote escaping) any value
containing spaces, tabs, newlines, quotes, dollar signs, backticks, or
backslashes; the prefix is the empty string exactly when the effective
environment map is empty." -/
def specEnvPfx (eff : List (String × String)) : String :=
  if eff = [] then ""
  else
    String.intercalate " "
      ((sortStrings (keysOf eff)).map
        (fun k => k ++ "=" ++ shellQuoteVal ((lookupKV k eff).getD ""))) ++ " "

/-! ## IbSendBwRunner.BuildCommand (runner/ib_send_bw.go) -/

/-- Go `IbSendBwRunner` (only state: the executable path). -/
structure IbSendBwRunner where
  executablePath : String
deriving DecidableEq

/-- Go `NewIbSendBwRunner`. -/
def NewIbSendBwRunner (executablePath : String) : IbSendBwRunner :=
  if executablePath = "" then ⟨"ib_send_bw"⟩ else ⟨executablePath⟩

/-- Rendering of Go `fmt.Sprintf("%.2f", x)` on the idealized float
(rounded to two decimals; ties on positive values round up, a harmless
idealization of float formatting, never exercised by a theorem below). -/
def formatF2 (q : FloatQ) : String :=
  let d : Int := (max q.den 1 : Nat)
  let scaled : Int := (q.num * 200 + d) / (2 * d)
  let ip : Int := scaled / 100
  let fp : Nat := (scaled % 100).natAbs
  toString ip ++ "." ++ (if fp < 10 then "0" ++ toString fp else toString fp)

/-- One iteration of the `switch key` in `IbSendBwRunner.BuildCommand`:
the flag text emitted for parameter `key` (empty for unknown names or
mismatched payload types). -/
def ibArgFlag (eff : List (String × GoVal)) (key : String) : String :=
  match key, lookupKV key eff with
  | "size", some (.int n) => " -s " ++ toString n
  | "size", some (.str s) => " -s " ++ s
  | "iterations", some (.int n) => " -n " ++ toString n
  | "tx_depth", some (.int n) => " -t " ++ toString n
  | "rx_depth", some (.int n) => " -r " ++ toString n
  | "mtu", some (.int n) => " -m " ++ toString n
  | "qp", some (.int n) => " -q " ++ toString n
  | "connection", some (.str s) => " -c " ++ s
  | "inline", some (.int n) => " -I " ++ toString n
  | "ib_dev", some (.str s) => " -d " ++ s
  | "gid_index", some (.int n) => " -x " ++ toString n
  | "sl", some (.int n) => " -S " ++ toString n
  | "cpu_freq", some (.float q) => " -F " ++ formatF2 q
  | "use_event", some (.bool b) => if b then " -e" else ""
  | "bidirectional", some (.bool b) => if b then " -b" else ""
  | "report_cycles", some (.bool b) => if b then " -C" else ""
  | "report_histogram", some (.bool b) => if b then " -H" else ""
  | "odp", some (.bool b) => if b then " -o" else ""
  | "report_gbits", some (.bool b) => if b then " -R" else ""
  | _, _ => ""

/-- The `for key, value := range effectiveArgs` loop of
`IbSendBwRunner.BuildCommand`, visiting keys in `argOrder`. -/
def ibArgFlags (eff : List (String × GoVal)) : List String → String
  | [] => ""
  | k :: ks => ibArgFlag eff k ++ ibArgFlags eff ks

/-- Go `IbSendBwRunner.BuildCommand`.  `argOrder` / `envOrder` are the map
iteration orders Go chose for the effective args / env maps. -/
def IbSendBwRunner.BuildCommand (r : IbSendBwRunner) (config : Config)
    (argOrder envOrder : List String) : String :=
  let envPfx := buildEnvPfx config envOrder
  let cmd0 := r.executablePath
  let cmd1 :=
    if config.role = "client" then
      let targetHost := if config.targetHost = "" then config.host else config.targetHost
      if targetHost = "" then cmd0 else cmd0 ++ " " ++ targetHost
    else if config.role = "intermediate" then
      let cmdF := cmd0 ++ " -F"
      let targetHost := if config.targetHost = "" then config.host else config.targetHost
      if targetHost = "" then cmdF else cmdF ++ " --forward-to " ++ targetHost
    else cmd0
  let cmd2 := if config.port > 0 then cmd1 ++ " -p " ++ toString config.port else cmd1
  let cmd3 :=
    if config.duration > 0 then cmd2 ++ " -D " ++ toString (config.duration / 1000000000)
    else cmd2
  envPfx ++ (cmd3 ++ ibArgFlags config.GetEffectiveArgs argOrder)

/-! ## Iperf3Runner.BuildCommand (runner/iperf3.go) -/

/-- Go `Iperf3Runner`. -/
structure Iperf3Runner where
  executablePath : String
deriving DecidableEq

/-- Go `NewIperf3Runner`. -/
def NewIperf3Runner (executablePath : String) : Iperf3Runner :=
  if executablePath = "" then ⟨"iperf3"⟩ else ⟨executablePath⟩

/-- Go ASCII lowering used for the `protocol` parameter
(`strings.ToLower`; parameter values are ASCII). -/
def asciiLower (s : String) : String :=
  String.mk (s.toList.map Char.toLower)

/-- One iteration of the `switch key` in `Iperf3Runner.BuildCommand`. -/
def iperf3ArgFlag (eff : List (String × GoVal)) (key : String) : String :=
  match key, lookupKV key eff with
  | "parallel_streams", some (.int n) => if n > 0 then " -P " ++ toString n else ""
  | "window_size", some (.str s) => if s = "" then "" else " -w " ++ s
  | "reverse", some (.bool b) => if b then " -R" else ""
  | "bitrate", some (.str s) => if s = "" then "" else " -b " ++ s
  | "interval", some (.int n) => if n > 0 then " -i " ++ toString n else ""
  | "protocol", some (.str s) => if asciiLower s = "udp" then " -u" else ""
  | "ipv6", some (.bool b) => if b then " -6" else ""
  | "ipv4", some (.bool b) => if b then " -4" else ""
  | "bind_address", some (.str s) => if s = "" then "" else " -B " ++ s
  | "omit_seconds", some (.int n) => if n ≥ 0 then " -O " ++ toString n else ""
  | "buffer_length", some (.str s) => if s = "" then "" else " -l " ++ s
  | "verbose", some (.bool b) => if b then " -V" else ""
  | _, _ => ""

/-- The `for key, value := range effectiveArgs` loop of
`Iperf3Runner.BuildCommand`, visiting keys in `argOrder`. -/
def iperf3ArgFlags (eff : List (String × GoVal)) : List String → String
  | [] => ""
  | k :: ks => iperf3ArgFlag eff k ++ iperf3ArgFlags eff ks

/-- Go `Iperf3Runner.BuildCommand`.  The intermediate role replaces the
whole command with a `socat` relay and returns early; otherwise the command
is role flag, port, duration, `-J`, then the parameter flags in map
iteration order. -/
def Iperf3Runner.BuildCommand (r : Iperf3Runner) (config : Config)
    (argOrder envOrder : List String) : String :=
  let envPfx := buildEnvPfx config envOrder
  if config.role = "intermediate" then
    let targetHost := if config.targetHost = "" then config.host else config.targetHost
    let listenPort : Int := if config.port ≤ 0 then 5201 else config.port
    envPfx ++ ("socat" ++ " TCP-LISTEN:" ++ toString listenPort ++ ",fork TCP:"
      ++ targetHost ++ ":" ++ toString listenPort)
  else
    let cmd1 :=
      if config.role = "server" then r.executablePath ++ " -s"
      else if config.role = "client" then
        let targetHost := if config.targetHost = "" then config.host else config.targetHost
        r.executablePath ++ " -c " ++ targetHost
      else r.executablePath
    let cmd2 := if config.port > 0 then cmd1 ++ " -p " ++ toString config.port else cmd1
    let cmd3 :=
      if config.duration > 0 then cmd2 ++ " -t " ++ toString (config.duration / 1000000000)
      else cmd2
    envPfx ++ (cmd3 ++ " -J" ++ iperf3ArgFlags config.GetEffectiveArgs argOrder)

/-! ## Text utilities for metric parsing (Go `strings`/`strconv`) -/

/-- ASCII whitespace recognized by Go `unicode.IsSpace` (parameter text is
ASCII; code points 11 and 12 are vertical tab and form feed). -/
def isSpaceB (c : Char) : Bool :=
  c = ' ' || c = '\t' || c = '\n' || c = '\r' || c = Char.ofNat 11 || c = Char.ofNat 12

/-- Split a character list at every separator (Go `strings.Split` for a
one-character separator); separators are dropped, empty pieces kept. -/
def splitBy (p : Char → Bool) : List Char → List (List Char)
  | [] => [[]]
  | c :: cs =>
    if p c then [] :: splitBy p cs
    else
      match splitBy p cs with
      | [] => [[c]]
      | l :: ls => (c :: l) :: ls

/-- Go `strings.Fields`: maximal runs of non-whitespace. -/
def goFields (s : List Char) : List (List Char) :=
  (splitBy isSpaceB s).filter (fun l => !l.isEmpty)

/-- Go `strings.Contains` on character lists. -/
def containsSub (s pat : List Char) : Bool :=
  decide (pat <:+: s)

/-- Go `strings.Contains` on strings. -/
def strContains (s pat : String) : Bool :=
  containsSub s.toList pat.toList

/-- Go `strings.Index`: position of the first occurrence, `none` if absent. -/
def findSub (pat : List Char) : List Char → Option Nat
  | [] => if pat.isEmpty then some 0 else none
  | c :: cs => if pat <+: (c :: cs) then some 0 else (findSub pat cs).map (· + 1)

/-- Go `strings.TrimSpace` (ASCII whitespace). -/
def trimSpaceL (l : List Char) : List Char :=
  ((l.dropWhile isSpaceB).reverse.dropWhile isSpaceB).reverse

/-- Numeric value of a digit string (callers check the digits first). -/
def digitsToNat (ds : List Char) : Nat :=
  ds.foldl (fun acc c => acc * 10 + (c.toNat - 48)) 0

/-- Non-empty and all decimal digits. -/
def allDigits (ds : List Char) : Bool :=
  !ds.isEmpty && ds.all Char.isDigit

/-- Go `strconv.Atoi`: optional sign followed by digits. -/
def parseAtoi (s : List Char) : Option Int :=
  match s with
  | '+' :: r => if allDigits r then some (digitsToNat r : Int) else none
  | '-' :: r => if allDigits r then some (-(digitsToNat r : Int)) else none
  | _ => if allDigits s then some (digitsToNat s : Int) else none

/-- Unsigned decimal with optional fraction, as an exact fraction. -/
def parseFloatCore (s : List Char) : Option FloatQ :=
  match splitBy (fun c => c = '.') s with
  | [ip] => if allDigits ip then some ⟨(digitsToNat ip : Int), 1⟩ else none
  | [ip, fp] =>
    if (ip.all Char.isDigit && fp.all Char.isDigit) && !(ip.isEmpty && fp.isEmpty) then
      some ⟨(digitsToNat ip * 10 ^ fp.length + digitsToNat fp : Nat), 10 ^ fp.length⟩
    else none
  | _ => none

/-- Go `strconv.ParseFloat` restricted to the plain decimal forms the
captured benchmark output uses (sign, digits, optional fraction; all inputs
evaluated by the theorems below are of this form). -/
def parseFloatQ (s : List Char) : Option FloatQ :=
  match s with
  | '+' :: r => parseFloatCore r
  | '-' :: r => (parseFloatCore r).map (fun q => ⟨-q.num, q.den⟩)
  | _ => parseFloatCore s

/-! ## runner.Result and Iperf3Runner.ParseMetrics (runner/iperf3.go) -/

/-- A value in a `Result.Metrics` map (`map[string]interface{}`). -/
inductive MetricVal where
  | num (q : FloatQ)
  | int (n : Int)
  | str (s : String)
deriving DecidableEq

/-- The metrics map of a Result. -/
abbrev Metrics := List (String × MetricVal)

/-- Go `result.Metrics[k] = v`. -/
def setMetric (k : String) (v : MetricVal) (m : Metrics) : Metrics :=
  insertKV k v m

/-- Embedding of Go `runner.Result` (timestamps and wall-clock duration are
not modelled; no claim mentions them). -/
structure Result where
  success : Bool := true
  output : String := ""
  error : String := ""
  exitCode : Int := 0
  metrics : Metrics := []
deriving DecidableEq

/-- Pattern "Mbits/sec". -/
def mbitsPat : List Char := "Mbits/sec".toList

/-- Pattern "Gbits/sec". -/
def gbitsPat : List Char := "Gbits/sec".toList

/-- Pattern "sec". -/
def secPat : List Char := "sec".toList

/-- JSON-detection pattern `"start"` (quotes included, as in the source). -/
def jsonStartPat : List Char := "\"start\"".toList

/-- JSON-detection pattern `"end"`. -/
def jsonEndPat : List Char := "\"end\"".toList

/-- Tail of the scan for `field == pat && i > 0`: `prev` is the previous
field; on a hit the previous field is returned (the loop then breaks). -/
def scanPrevFieldGo (pat prev : List Char) : List (List Char) → Option (List Char)
  | [] => none
  | f :: fs => if f = pat then some prev else scanPrevFieldGo pat f fs

/-- The `for i, field := range fields` scan of `parseTextMetrics`: first
occurrence of `pat` at an index `i > 0`, returning `fields[i-1]`. -/
def scanPrevField (pat : List Char) : List (List Char) → Option (List Char)
  | [] => none
  | f :: fs => scanPrevFieldGo pat f fs

/-- The retransmits scan of `parseTextMetrics`: first field equal to
"Mbits/sec" or "Gbits/sec" whose successor parses as a non-negative int
(on a failed parse the loop continues rather than breaking). -/
def scanRetrans : List (List Char) → Option Int
  | f :: g :: rest =>
    if f = mbitsPat || f = gbitsPat then
      match parseAtoi g with
      | some n => if n ≥ 0 then some n else scanRetrans (g :: rest)
      | none => scanRetrans (g :: rest)
    else scanRetrans (g :: rest)
  | _ => none

/-- The bandwidth branch of `parseTextMetrics` for one output line:
a line containing "Mbits/sec" (else "Gbits/sec") has the field before the
unit parsed and the three bandwidth metrics set. -/
def textLineBw (line : List Char) (m : Metrics) : Metrics :=
  if containsSub line mbitsPat then
    match scanPrevField mbitsPat (goFields line) with
    | some fld =>
      match parseFloatQ fld with
      | some bw =>
        setMetric "bandwidth_gbps" (.num (bw.divNat 1000))
          (setMetric "bandwidth_bps" (.num (bw.mulNat 1000000))
            (setMetric "bandwidth_mbps" (.num bw) m))
      | none => m
    | none => m
  else if containsSub line gbitsPat then
    match scanPrevField gbitsPat (goFields line) with
    | some fld =>
      match parseFloatQ fld with
      | some bw =>
        setMetric "bandwidth_mbps" (.num (bw.mulNat 1000))
          (setMetric "bandwidth_bps" (.num (bw.mulNat 1000000000))
            (setMetric "bandwidth_gbps" (.num bw) m))
      | none => m
    | none => m
  else m

/-- The retransmits branch of `parseTextMetrics` for one output line. -/
def textLineRetrans (line : List Char) (m : Metrics) : Metrics :=
  if (containsSub line mbitsPat || containsSub line gbitsPat) && containsSub line secPat then
    match scanRetrans (goFields line) with
    | some n => setMetric "retransmits" (.int n) m
    | none => m
  else m

/-- Go `Iperf3Runner.parseTextMetrics`: line-by-line scan of the captured
output (lines are `strings.Split(output, "\n")`). -/
def parseTextMetrics (output : List Char) (m : Metrics) : Metrics :=
  (splitBy (fun c => c = '\n') output).foldl
    (fun acc line => textLineRetrans line (textLineBw line acc)) m

/-- Right brace character. -/
def rbraceC : Char := Char.ofNat 125

/-- The value-terminator search of `extractNumericValue`: index of the first
comma, closing brace, or line break — with the source's quirk that a
terminator at index 0 (or no terminator) yields the whole length. -/
def valueEndIdx (l : List Char) : Nat :=
  match l.findIdx? (fun c => c = ',' || c = rbraceC || c = '\n' || c = '\r') with
  | some i => if i = 0 then l.length else i
  | none => l.length

/-- Go `Iperf3Runner.extractNumericValue`: value after `"key":`, trimmed,
parsed as a float; `-1` when absent or unparsable.  (The Go caller passes the
key pre-quoted and the function re-trims the quotes; here the bare key is
taken and quoted once, which is the same pattern.) -/
def extractNumericValue (text : List Char) (key : String) : FloatQ :=
  let keyPattern := dquoteC :: (key.toList ++ [dquoteC])
  match findSub keyPattern text with
  | none => ⟨-1, 1⟩
  | some keyIndex =>
    match findSub [':'] (text.drop keyIndex) with
    | none => ⟨-1, 1⟩
    | some colonIndex =>
      let valueText := trimSpaceL (text.drop (keyIndex + colonIndex + 1))
      let valueStr := trimSpaceL (valueText.take (valueEndIdx valueText))
      match parseFloatQ valueStr with
      | some v => v
      | none => ⟨-1, 1⟩

/-- Go `Iperf3Runner.parseJSONMetrics` (float comparisons `> 0` / `>= 0`
read off the numerator; every `FloatQ` built here has a positive
denominator). -/
def parseJSONMetrics (output : List Char) (m0 : Metrics) : Metrics :=
  let bps := extractNumericValue output "bits_per_second"
  let m1 :=
    if bps.num > 0 then
      setMetric "bandwidth_gbps" (.num (bps.divNat 1000000000))
        (setMetric "bandwidth_mbps" (.num (bps.divNat 1000000))
          (setMetric "bandwidth_bps" (.num bps) m0))
    else m0
  let m2 :=
    if containsSub output (dquoteC :: ("retransmits".toList ++ [dquoteC])) then
      let r := extractNumericValue output "retransmits"
      if r.num ≥ 0 then setMetric "retransmits" (.int r.toIntTrunc) m1 else m1
    else m1
  let m3 :=
    if containsSub output (dquoteC :: ("streams".toList ++ [dquoteC])) then
      let s := extractNumericValue output "streams"
      if s.num > 0 then setMetric "parallel_streams" (.int s.toIntTrunc) m2 else m2
    else m2
  if containsSub output (dquoteC :: ("duration".toList ++ [dquoteC])) then
    let d := extractNumericValue output "duration"
    if d.num > 0 then setMetric "actual_duration" (.num d) m3 else m3
  else m3

/-- Go `Iperf3Runner.ParseMetrics`: choose JSON parsing when both `"start"`
and `"end"` markers appear in the output, else the text fallback; mutates
only the metrics map and returns no error (the Go nil-result guard is
unrepresentable here since `result` is a value). -/
def Iperf3Runner.ParseMetrics (_r : Iperf3Runner) (result : Result) : Except String Result :=
  let output := result.output.toList
  let m :=
    if containsSub output jsonStartPat && containsSub output jsonEndPat then
      parseJSONMetrics output result.metrics
    else parseTextMetrics output result.metrics
  .ok { result with metrics := m }

/-! ## Runner registry (runner/runner.go) -/

/-- A runner instance produced by a registry factory. -/
inductive RunnerInst where
  | iperf3 (r : Iperf3Runner)
  | ibSendBw (r : IbSendBwRunner)
  | testpmd (executablePath : String)
deriving DecidableEq

/-- Go `Runner.SetExecutablePath`. -/
def RunnerInst.SetExecutablePath : RunnerInst → String → RunnerInst
  | .iperf3 _, p => .iperf3 ⟨p⟩
  | .ibSendBw _, p => .ibSendBw ⟨p⟩
  | .testpmd _, p => .testpmd p

/-- Go `CreateWithPath` (runner/runner.go): look the name up in the
registry; unknown names give the error `runner <name> not found`; otherwise
a fresh instance, with the executable-path override applied when the caller
supplied a non-empty path.  The registry maps each name to the instance its
factory builds. -/
def CreateWithPath (registry : List (String × RunnerInst)) (name binaryPath : String) :
    Except String RunnerInst :=
  match lookupKV name registry with
  | none => .error ("runner " ++ name ++ " not found")
  | some r => .ok (if binaryPath = "" then r else r.SetExecutablePath binaryPath)

/-- The registry as populated by the self-registering `init()` functions of
the shipped runner modules. -/
def defaultRegistry : List (String × RunnerInst) :=
  [("ib_send_bw", .ibSendBw (NewIbSendBwRunner "")),
   ("iperf3", .iperf3 (NewIperf3Runner "")),
   ("testpmd", .testpmd "dpdk-testpmd")]

/-! ## config.TestScenario, topology, validation (config/config.go, config/validator.go) -/

/-- Embedding of Go `config.TestScenario` (the `Config`/`Delay` payloads are
irrelevant to classification and validation; `repeatCount` is the Go field
`Repeat`). -/
structure TestScenario where
  name : String := ""
  client : String := ""
  server : String := ""
  intermediate : String := ""
  intermediate1 : String := ""
  intermediate2 : String := ""
  repeatCount : Int := 0
deriving DecidableEq

/-- Go `HasFourNodeTopology`: both 4-node intermediates set. -/
def HasFourNodeTopology (test : TestScenario) : Bool :=
  test.intermediate1 != "" && test.intermediate2 != ""

/-- Go `HasIntermediateNode`: the 3-node intermediate set. -/
def HasIntermediateNode (test : TestScenario) : Bool :=
  test.intermediate != ""

/-- Go `GetTopologyType`. -/
def GetTopologyType (test : TestScenario) : String :=
  if HasFourNodeTopology test then "4-node"
  else if HasIntermediateNode test then "3-node"
  else "2-node"

/-- Go `validateTestScenario` (config/validator.go).  The enclosing
`TestConfig` enters only through the key set of its `Hosts` map, passed as
`hosts`; the result is the error (`some msg`) or acceptance (`none`). -/
def validateTestScenario (hosts : List String) (index : Int) (test : TestScenario) :
    Option String :=
  if test.name = "" then some ("test " ++ toString index ++ ": name is required")
  else if test.client = "" then some ("test " ++ test.name ++ ": client host is required")
  else if test.server = "" then some ("test " ++ test.name ++ ": server host is required")
  else if test.client ∉ hosts then
    some ("test " ++ test.name ++ ": client host " ++ test.client
      ++ " not found in hosts configuration")
  else if test.server ∉ hosts then
    some ("test " ++ test.name ++ ": server host " ++ test.server
      ++ " not found in hosts configuration")
  else if test.intermediate ≠ "" ∧ test.intermediate ∉ hosts then
    some ("test " ++ test.name ++ ": intermediate host " ++ test.intermediate
      ++ " not found in hosts configuration")
  else if test.intermediate ≠ "" ∧ test.intermediate = test.client then
    some ("test " ++ test.name ++ ": intermediate and client cannot be the same host")
  else if test.intermediate ≠ "" ∧ test.intermediate = test.server then
    some ("test " ++ test.name ++ ": intermediate and server cannot be the same host")
  else if test.client = test.server then
    some ("test " ++ test.name ++ ": client and server cannot be the same host")
  else if test.repeatCount < 0 then
    some ("test " ++ test.name ++ ": repeat count cannot be negative")
  else none

/-- Go `MergeRunnerConfig` (config/config.go): merge host-level defaults
with test-level overrides.  Go `nil` config pointers are `none`; the
source's nil-map normalization is the identity here because `nil` maps are
already `[]`. -/
def MergeRunnerConfig (hostConfig testConfig : Option Config) : Config :=
  match hostConfig, testConfig with
  | none, none => {}
  | none, some t => t
  | some h, none => h
  | some h, some t =>
    { duration := if t.duration > 0 then t.duration else h.duration
      host := if t.host ≠ "" then t.host else h.host
      targetHost := if t.targetHost ≠ "" then t.targetHost else h.targetHost
      port := if t.port > 0 then t.port else h.port
      role := if t.role ≠ "" then t.role else h.role
      args := insertAllKV (insertAllKV [] h.args) t.args
      env := insertAllKV (insertAllKV [] h.env) t.env
      serverArgs := insertAllKV (insertAllKV [] h.serverArgs) t.serverArgs
      clientArgs := insertAllKV (insertAllKV [] h.clientArgs) t.clientArgs
      serverEnv := insertAllKV (insertAllKV [] h.serverEnv) t.serverEnv
      clientEnv := insertAllKV (insertAllKV [] h.clientEnv) t.clientEnv }

/-! ## coordinator.TestResult and the scenario executor (coordinator/executor.go) -/

/-- Embedding of Go `coordinator.TestResult` (timestamps, duration and the
environment-info payload are not modelled). -/
structure TestResult where
  scenarioName : String := ""
  success : Bool := false
  clientResult : Option Result := none
  serverResult : Option Result := none
  intermediateResult : Option Result := none
  intermediate1Result : Option Result := none
  intermediate2Result : Option Result := none
  clientCommand : String := ""
  serverCommand : String := ""
  intermediateCommand : String := ""
  intermediate1Command : String := ""
  intermediate2Command : String := ""
  error : String := ""
deriving DecidableEq

/-- One `(x == nil || x.Success)` conjunct of the aggregation. -/
def optRoleOk : Option Result → Bool
  | none => true
  | some r => r.success

/-- The success aggregation at the end of `ExecuteTest`:
client captured and successful, every other captured role successful, and
no orchestration error. -/
def aggregateSuccess (tr : TestResult) : Bool :=
  (match tr.clientResult with
   | some c => c.success
   | none => false)
  && optRoleOk tr.serverResult
  && optRoleOk tr.intermediateResult
  && optRoleOk tr.intermediate1Result
  && optRoleOk tr.intermediate2Result
  && (tr.error == "")

/-- The role Results actually captured in a TestResult. -/
def capturedResults (tr : TestResult) : List Result :=
  [tr.clientResult, tr.serverResult, tr.intermediateResult,
   tr.intermediate1Result, tr.intermediate2Result].filterMap id

/-- A role slot of a TestResult. -/
inductive RoleSlot where
  | client
  | server
  | intermediate
  | intermediate1
  | intermediate2
deriving DecidableEq

/-- The captured Result in a given slot. -/
def slotResult (tr : TestResult) : RoleSlot → Option Result
  | .client => tr.clientResult
  | .server => tr.serverResult
  | .intermediate => tr.intermediateResult
  | .intermediate1 => tr.intermediate1Result
  | .intermediate2 => tr.intermediate2Result

/-- Flip the given slot's captured `Result.Success` to false (identity on a
slot with no captured Result). -/
def failSlot (tr : TestResult) : RoleSlot → TestResult
  | .client =>
    { tr with clientResult := tr.clientResult.map (fun r => { r with success := false }) }
  | .server =>
    { tr with serverResult := tr.serverResult.map (fun r => { r with success := false }) }
  | .intermediate =>
    { tr with intermediateResult :=
        tr.intermediateResult.map (fun r => { r with success := false }) }
  | .intermediate1 =>
    { tr with intermediate1Result :=
        tr.intermediate1Result.map (fun r => { r with success := false }) }
  | .intermediate2 =>
    { tr with intermediate2Result :=
        tr.intermediate2Result.map (fun r => { r with success := false }) }

/-- Outcome of one remote role execution (`runRemoteCommand`), as observed
by the executor: a Result delivered in time, an error message, or a call
still in flight when the scenario deadline expires (in which case the SSH
layer returns `command timed out: context deadline exceeded` and
`runRemoteCommand` wraps it). -/
inductive RemoteOutcome where
  | ok (r : Result)
  | errMsg (msg : String)
  | deadline
deriving DecidableEq

/-- The SSH layer's deadline error text (ssh/client.go, `cmdCtx.Err()` of an
expired context). -/
def sshTimeoutMsg : String := "command timed out: context deadline exceeded"

/-- Go `runRemoteCommand` as a function of its outcome. -/
def runRemoteCommandM : RemoteOutcome → Except String Result
  | .ok r => .ok r
  | .errMsg m => .error m
  | .deadline => .error ("SSH command execution failed: " ++ sshTimeoutMsg)

/-- Go `executeClientServerTest` (coordinator/executor.go): commands are
recorded, the client call blocks; a client error aborts the scenario, else
the post-client select either collects the server Result (when the server
finished before the scenario deadline), records a server error, or sets the
`test timed out` error on deadline expiry. -/
def executeClientServerTestM (cOut sOut : RemoteOutcome)
    (serverFinishedBeforeDeadline : Bool) (clientCmd serverCmd : String)
    (result : TestResult) : Except String TestResult :=
  let r0 := { result with serverCommand := serverCmd, clientCommand := clientCmd }
  match runRemoteCommandM cOut with
  | .error m => .error ("client execution failed: " ++ m)
  | .ok clientRes =>
    let r1 := { r0 with clientResult := some clientRes }
    if serverFinishedBeforeDeadline then
      match runRemoteCommandM sOut with
      | .ok serverRes => .ok { r1 with serverResult := some serverRes }
      | .error m => .ok { r1 with error := "server execution failed: " ++ m }
    else .ok { r1 with error := "test timed out" }

/-- Go `ExecuteTest` for the two-node topology: run the roles, then compute
the aggregate success flag over the populated TestResult. -/
def ExecuteTestTwoNodeM (scenarioName clientCmd serverCmd : String)
    (cOut sOut : RemoteOutcome) (serverFinishedBeforeDeadline : Bool) :
    Except String TestResult :=
  match executeClientServerTestM cOut sOut serverFinishedBeforeDeadline
      clientCmd serverCmd { scenarioName := scenarioName } with
  | .error e => .error e
  | .ok r => .ok { r with success := aggregateSuccess r }

/-- Go `executeThreeNodeTest` (coordinator/executor.go, part_006): commands
are recorded, the client call blocks; a client error aborts the scenario;
the first post-client select collects the server Result (or records a
server/timeout error) as in the two-node case; the second select waits at
most a 5-second grace window for the intermediate — a delivered Result is
stored, a delivered error is recorded only when no error is set yet, and on
`time.After(5 * time.Second)` expiry (`intermediateFinishedInGrace = false`)
only a warning is logged: nothing at all is recorded for the launched
intermediate.  (`executeFourNodeTest` repeats this select once per
intermediate.) -/
def executeThreeNodeTestM (cOut iOut sOut : RemoteOutcome)
    (serverFinishedBeforeDeadline intermediateFinishedInGrace : Bool)
    (clientCmd intermediateCmd serverCmd : String)
    (result : TestResult) : Except String TestResult :=
  let r0 := { result with
    serverCommand := serverCmd
    clientCommand := clientCmd
    intermediateCommand := intermediateCmd }
  match runRemoteCommandM cOut with
  | .error m => .error ("client execution failed: " ++ m)
  | .ok clientRes =>
    let r1 := { r0 with clientResult := some clientRes }
    let r2 :=
      if serverFinishedBeforeDeadline then
        match runRemoteCommandM sOut with
        | .ok serverRes => { r1 with serverResult := some serverRes }
        | .error m => { r1 with error := "server execution failed: " ++ m }
      else { r1 with error := "test timed out" }
    let r3 :=
      if intermediateFinishedInGrace then
        match runRemoteCommandM iOut with
        | .ok intermediateRes => { r2 with intermediateResult := some intermediateRes }
        | .error m =>
          if r2.error = "" then { r2 with error := "intermediate execution failed: " ++ m }
          else r2
      else r2
    .ok r3

/-- Go `ExecuteTest` for the three-node topology: run the roles, then
compute the aggregate success flag over the populated TestResult. -/
def ExecuteTestThreeNodeM (scenarioName clientCmd intermediateCmd serverCmd : String)
    (cOut iOut sOut : RemoteOutcome)
    (serverFinishedBeforeDeadline intermediateFinishedInGrace : Bool) :
    Except String TestResult :=
  match executeThreeNodeTestM cOut iOut sOut serverFinishedBeforeDeadline
      intermediateFinishedInGrace clientCmd intermediateCmd serverCmd
      { scenarioName := scenarioName } with
  | .error e => .error e
  | .ok r => .ok { r with success := aggregateSuccess r }

/-- The per-repeat error handling of `RunAllTests` (coordinator/coordinator.go):
an executor error is converted into a failed TestResult carrying the error
text. -/
def runAllTestsEntry (scenarioName : String) (e : Except String TestResult) : TestResult :=
  match e with
  | .ok r => r
  | .error m => { scenarioName := scenarioName, success := false, error := m }

/-! ## Coordinator connection cleanup (coordinator/coordinator.go) -/

/-- An open SSH connection, described by the error its `Close()` would
report (if any). -/
structure SshConn where
  closeErr : Option String := none
deriving DecidableEq

/-- The coordinator state relevant to cleanup: the open connections map. -/
structure CoordState where
  sshClients : List (String × SshConn) := []
deriving DecidableEq

/-- Go `Coordinator.Cleanup`: close every connection, log (not raise) each
close failure, and reset the connection map to empty.  Returns the new state
and the log lines emitted. -/
def Cleanup (c : CoordState) : CoordState × List String :=
  (⟨[]⟩,
   c.sshClients.filterMap
     (fun p => p.2.closeErr.map
       (fun e => "Error closing connection to host " ++ p.1 ++ ": " ++ e)))

/-! ## Concrete example inputs used by the theorems below -/

/-- An ib_send_bw server config with two recognized parameters; its map has
two keys, so Go's randomized iteration order can emit the flags either way. -/
def cfgDetCex : Config :=
  { role := "server", args := [("size", .int 32768), ("iterations", .int 1000)] }

/-- A config whose env map has two keys (exercises env-order independence). -/
def cfgDetWit : Config :=
  { role := "server", env := [("B", "x"), ("A", "y")] }

/-- Role resolution example from the specification: general
`{iterations:1000, ib_dev:"mlx5_0"}` with client overlay `{iterations:500}`. -/
def resolveWitCfg : Config :=
  { role := "client",
    args := [("iterations", .int 1000), ("ib_dev", .str "mlx5_0")],
    clientArgs := [("iterations", .int 500)] }

/-- Host-level runner config for the merge examples. -/
def mergeCexHost : Config := { duration := 5 }

/-- Test-level runner config with a negative (non-zero) duration. -/
def mergeCexTest : Config := { duration := -3 }

/-- Host-level runner config with two parameters and a positive duration. -/
def mergeWitHost : Config :=
  { duration := 5, host := "h1", args := [("x", .int 1), ("y", .int 2)] }

/-- Test-level runner config overriding duration and one parameter. -/
def mergeWitTest : Config := { duration := 30, args := [("x", .int 9)] }

/-- A captured iperf3 text-mode summary line holding `934 Mbits/sec`. -/
def sampleIperf3Result : Result :=
  { output := "[ 5]   0.00-10.00  sec  1.09 GBytes   934 Mbits/sec                  receiver" }

/-- The metric map ParseMetrics leaves on the sample Result. -/
def sampleParsedMetrics : Metrics :=
  match Iperf3Runner.ParseMetrics (NewIperf3Runner "") sampleIperf3Result with
  | .ok r => r.metrics
  | .error _ => []

/-- A Result whose output holds no recognizable bandwidth pattern. -/
def noPatternResult : Result := { output := "no bandwidth here" }

/-- A scenario that sets only `intermediate2` (dangling 4-node field). -/
def cexScenario : TestScenario :=
  { name := "t1", client := "hostA", server := "hostB",
    intermediate2 := "hostC", repeatCount := 1 }

/-- A TestResult with captured client and server Results, both successful. -/
def aggWitTR : TestResult :=
  { clientResult := some {}, serverResult := some {}, error := "" }

/-- The eventual Result of a launched intermediate relay that fails. -/
def failedIntermediateRes : Result :=
  { success := false, output := "", error := "relay terminated", exitCode := 1 }

/-- A three-node run (client and server succeed) whose launched intermediate
does not deliver its failed Result within the 5-second collection window. -/
def graceWindowTR : TestResult :=
  runAllTestsEntry "t3"
    (ExecuteTestThreeNodeM "t3" "client-cmd" "intermediate-cmd" "server-cmd"
      (.ok {}) (.ok failedIntermediateRes) (.ok {}) true false)

/-- The identical three-node run, except that the intermediate's failed
Result arrives within the collection window. -/
def collectedTR : TestResult :=
  runAllTestsEntry "t3"
    (ExecuteTestThreeNodeM "t3" "client-cmd" "intermediate-cmd" "server-cmd"
      (.ok {}) (.ok failedIntermediateRes) (.ok {}) true true)

/-- A config whose effective env needs quoting on one value. -/
def envWitCfg : Config := { env := [("B", "b v"), ("A", "x")] }

/-! ## Helper lemmas: association-list lookups -/

theorem orElseO_none_right {α : Type} (a : Option α) : orElseO a none = a := by
  cases a <;> rfl

theorem lookupKV_eq_none_of_not_mem {α : Type} {k : String} :
    ∀ (m : List (String × α)), k ∉ keysOf m → lookupKV k m = none := by
  intro m
  induction m with
  | nil => intro _; rfl
  | cons p ps ih =>
    intro h
    have h1 : ¬ (p.1 = k) := by
      intro he
      exact h (by simp [keysOf, he])
    have h2 : k ∉ keysOf ps := by
      intro hk
      apply h
      have : keysOf (p :: ps) = p.1 :: keysOf ps := rfl
      rw [this]
      exact List.mem_cons_of_mem _ hk
    unfold lookupKV
    rw [if_neg h1]
    exact ih h2

theorem lookupKV_eraseKey_ne {α : Type} {k k0 : String} (hne : k ≠ k0) :
    ∀ (m : List (String × α)), lookupKV k (eraseKey k0 m) = lookupKV k m := by
  intro m
  induction m with
  | nil => rfl
  | cons p ps ih =>
    unfold eraseKey
    by_cases hp : p.1 = k0
    · rw [if_pos hp, ih]
      have hne2 : ¬ (p.1 = k) := fun he => hne (he.symm.trans hp)
      simp only [lookupKV]
      rw [if_neg hne2]
    · rw [if_neg hp]
      simp only [lookupKV]
      rw [ih]

theorem lookupKV_insertKV {α : Type} (k k0 : String) (v0 : α) (m : List (String × α)) :
    lookupKV k (insertKV k0 v0 m) = if k0 = k then some v0 else lookupKV k m := by
  by_cases he : k0 = k
  · simp [insertKV, lookupKV, he]
  · simp only [insertKV, lookupKV, if_neg he]
    exact lookupKV_eraseKey_ne (fun h => he h.symm) m

theorem lookupKV_insertAllKV {α : Type} (k : String) :
    ∀ (src m : List (String × α)), NodupKeys src →
      lookupKV k (insertAllKV m src) = orElseO (lookupKV k src) (lookupKV k m) := by
  intro src
  induction src with
  | nil => intro m _; rfl
  | cons p ps ih =>
    intro m hnd
    have hndcons : (p.1 :: keysOf ps).Nodup := hnd
    have hnotin : p.1 ∉ keysOf ps := (List.nodup_cons.mp hndcons).1
    have hndtail : NodupKeys ps := (List.nodup_cons.mp hndcons).2
    have hstep : insertAllKV m (p :: ps) = insertAllKV (insertKV p.1 p.2 m) ps := rfl
    rw [hstep, ih _ hndtail, lookupKV_insertKV]
    by_cases he : p.1 = k
    · rw [if_pos he]
      have hnone : lookupKV k ps = none := lookupKV_eq_none_of_not_mem ps (he ▸ hnotin)
      simp only [lookupKV, if_pos he, hnone, orElseO]
    · rw [if_neg he]
      simp only [lookupKV]
      rw [if_neg he]

theorem lookupKV_copy {α : Type} (k : String) (src : List (String × α)) (h : NodupKeys src) :
    lookupKV k (insertAllKV [] src) = lookupKV k src := by
  rw [lookupKV_insertAllKV k src [] h]
  exact orElseO_none_right _

/-! ## Helper lemmas: sorting is iteration-order independent -/

theorem sortStrings_perm_eq {o1 o2 : List String} (h : o1.Perm o2) :
    sortStrings o1 = sortStrings o2 := by
  apply List.eq_of_perm_of_sorted (r := strLeR)
  · exact ((List.perm_insertionSort strLeR o1).trans h).trans
      (List.perm_insertionSort strLeR o2).symm
  · exact List.sorted_insertionSort strLeR o1
  · exact List.sorted_insertionSort strLeR o2

theorem buildEnvPfx_perm (config : Config) {o1 o2 : List String} (h : o1.Perm o2) :
    buildEnvPfx config o1 = buildEnvPfx config o2 := by
  unfold buildEnvPfx
  rw [sortStrings_perm_eq h]

/-! ## Helper lemmas: line splitting and substring containment -/

theorem infix_of_isPre {m l : List Char} (h : m <+: l) : m <:+: l := by
  obtain ⟨t, ht⟩ := h
  exact ⟨[], t, by simpa using ht⟩

theorem infix_cons_of_infix {m l : List Char} (c : Char) (h : m <:+: l) : m <:+: c :: l := by
  obtain ⟨s, t, hst⟩ := h
  exact ⟨c :: s, t, by simp [hst]⟩

theorem splitBy_sound (p : Char → Bool) :
    ∀ l : List Char, ∃ l0 ls, splitBy p l = l0 :: ls ∧ l0 <+: l ∧ ∀ m ∈ ls, m <:+: l := by
  intro l
  induction l with
  | nil => exact ⟨[], [], rfl, List.nil_prefix, by simp⟩
  | cons c cs ih =>
    obtain ⟨l0, ls, heq, hpre, hmem⟩ := ih
    by_cases hp : p c
    · refine ⟨[], splitBy p cs, by simp [splitBy, hp], List.nil_prefix, ?_⟩
      intro m hm
      rw [heq] at hm
      rcases List.mem_cons.mp hm with hm | hm
      · exact hm ▸ infix_cons_of_infix c (infix_of_isPre hpre)
      · exact infix_cons_of_infix c (hmem m hm)
    · refine ⟨c :: l0, ls, ?_, ?_, ?_⟩
      · simp [splitBy, hp, heq]
      · obtain ⟨t, ht⟩ := hpre
        exact ⟨t, by simp [ht]⟩
      · intro m hm
        exact infix_cons_of_infix c (hmem m hm)

theorem mem_splitBy_sub {p : Char → Bool} {l line : List Char}
    (h : line ∈ splitBy p l) : line <:+: l := by
  obtain ⟨l0, ls, heq, hpre, hmem⟩ := splitBy_sound p l
  rw [heq] at h
  rcases List.mem_cons.mp h with h | h
  · exact h ▸ infix_of_isPre hpre
  · exact hmem line h

theorem containsSub_line_false {l line pat : List Char} {p : Char → Bool}
    (h : containsSub l pat = false) (hm : line ∈ splitBy p l) :
    containsSub line pat = false := by
  unfold containsSub at h ⊢
  rw [decide_eq_false_iff_not] at h
  rw [decide_eq_false_iff_not]
  intro hinf
  exact h (hinf.trans (mem_splitBy_sub hm))

/-! ## Helper lemmas: the text parser leaves metrics alone without a unit pattern -/

theorem textLineBw_id {line : List Char} (m : Metrics)
    (hb : containsSub line mbitsPat = false) (hg : containsSub line gbitsPat = false) :
    textLineBw line m = m := by
  simp [textLineBw, hb, hg]

theorem textLineRetrans_id {line : List Char} (m : Metrics)
    (hb : containsSub line mbitsPat = false) (hg : containsSub line gbitsPat = false) :
    textLineRetrans line m = m := by
  simp [textLineRetrans, hb, hg]

theorem foldl_textLines_id :
    ∀ (lines : List (List Char)) (m : Metrics),
      (∀ line ∈ lines,
        containsSub line mbitsPat = false ∧ containsSub line gbitsPat = false) →
      lines.foldl (fun acc line => textLineRetrans line (textLineBw line acc)) m = m := by
  intro lines
  induction lines with
  | nil => intro m _; rfl
  | cons l ls ih =>
    intro m h
    have hl := h l (by simp)
    have hstep : textLineRetrans l (textLineBw l m) = m := by
      rw [textLineBw_id m hl.1 hl.2, textLineRetrans_id m hl.1 hl.2]
    simp only [List.foldl_cons, hstep]
    exact ih m (fun line hm => h line (by simp [hm]))

theorem parseTextMetrics_id (out : List Char) (m : Metrics)
    (h1 : containsSub out mbitsPat = false) (h2 : containsSub out gbitsPat = false) :
    parseTextMetrics out m = m := by
  unfold parseTextMetrics
  exact foldl_textLines_id _ m
    (fun line hm => ⟨containsSub_line_false h1 hm, containsSub_line_false h2 hm⟩)

/-! ## Helper lemmas: topology predicates as propositions -/

theorem hasFour_eq_true_iff (t : TestScenario) :
    HasFourNodeTopology t = true ↔ (t.intermediate1 ≠ "" ∧ t.intermediate2 ≠ "") := by
  simp [HasFourNodeTopology]

theorem hasInter_eq_true_iff (t : TestScenario) :
    HasIntermediateNode t = true ↔ t.intermediate ≠ "" := by
  simp [HasIntermediateNode]

/-! ## Claim theorems -/

/-- C9: Connection cleanup is idempotent and never raises: after the first
call the coordinator's connection map is empty, and a second call performs
no closes and emits no log lines (close failures are only ever logged —
`Cleanup` is total and returns no error). -/
theorem cleanup_idempotent (s : CoordState) :
    (Cleanup s).1.sshClients = [] ∧ Cleanup (Cleanup s).1 = ((Cleanup s).1, []) :=
  ⟨rfl, rfl⟩

/-- C2 counterexample: a scenario that sets only `intermediate2` passes
`validateTestScenario` (no error) — it is not rejected by configuration
validation — and is classified as a plain two-node topology. -/
theorem topology_validation_cex :
    cexScenario.intermediate2 ≠ "" ∧ cexScenario.intermediate1 = ""
    ∧ cexScenario.intermediate = ""
    ∧ validateTestScenario ["hostA", "hostB", "hostC"] 0 cexScenario = none
    ∧ GetTopologyType cexScenario = "2-node" := by
  refine ⟨by decide, rfl, rfl, by decide, by decide⟩

/-- C2 (amended): Topology classification is a pure function of which
intermediate fields are set — no intermediate ⇒ two-node, `intermediate`
set ⇒ three-node, `intermediate1` and `intermediate2` both set ⇒ four-node —
but a scenario setting only `intermediate2` (or only `intermediate1`) is NOT
rejected by configuration validation: `validateTestScenario` is invariant
under arbitrary changes of the `intermediate1`/`intermediate2` fields. -/
theorem topology_classification_amended (t : TestScenario) (hosts : List String)
    (index : Int) (v1 v2 : String) :
    (GetTopologyType t = "4-node" ↔ (t.intermediate1 ≠ "" ∧ t.intermediate2 ≠ ""))
    ∧ (GetTopologyType t = "3-node" ↔
        (¬(t.intermediate1 ≠ "" ∧ t.intermediate2 ≠ "") ∧ t.intermediate ≠ ""))
    ∧ (GetTopologyType t = "2-node" ↔
        (¬(t.intermediate1 ≠ "" ∧ t.intermediate2 ≠ "") ∧ t.intermediate = ""))
    ∧ validateTestScenario hosts index
        { t with intermediate1 := v1, intermediate2 := v2 }
      = validateTestScenario hosts index t := by
  have s34 : ¬(("3-node" : String) = "4-node") := by decide
  have s24 : ¬(("2-node" : String) = "4-node") := by decide
  have s43 : ¬(("4-node" : String) = "3-node") := by decide
  have s23 : ¬(("2-node" : String) = "3-node") := by decide
  have s42 : ¬(("4-node" : String) = "2-node") := by decide
  have s32 : ¬(("3-node" : String) = "2-node") := by decide
  refine ⟨?_, ?_, ?_, rfl⟩ <;>
  · by_cases h4 : HasFourNodeTopology t <;> by_cases h3 : HasIntermediateNode t <;>
      simp only [GetTopologyType, h4, h3, if_true, if_false, Bool.false_eq_true,
        Bool.true_eq_false, ite_true, ite_false] <;>
      simp_all [hasFour_eq_true_iff, hasInter_eq_true_iff]

/-- C1 counterexample: the aggregate success law fails over *launched*
roles.  In a three-node run whose launched intermediate (command recorded)
eventually fails but does not deliver its Result within the 5-second
collection window of `executeThreeNodeTest`, the TestResult holds no
intermediate Result and an empty error, and `TestResult.Success` is true
even though the launched role's `Result.Success` is false — so that role's
false success does not flip the aggregate.  The identical run with the
Result collected in time yields `Success = false`: the discrepancy is
purely the collection window. -/
theorem aggregate_success_launched_cex :
    graceWindowTR.intermediateCommand = "intermediate-cmd"
    ∧ failedIntermediateRes.success = false
    ∧ graceWindowTR.intermediateResult = none
    ∧ graceWindowTR.error = ""
    ∧ graceWindowTR.success = true
    ∧ collectedTR.intermediateResult = some failedIntermediateRes
    ∧ collectedTR.success = false := by
  refine ⟨rfl, rfl, rfl, rfl, by decide, rfl, by decide⟩

/-- C1 (amended): the aggregate law holds over the roles whose Results were
actually *captured* in the TestResult: for every aggregated TestResult of an
executed scenario (the client always has a captured Result there), the
aggregate Success flag is true iff every captured role Result is successful
and the orchestration error string is empty; and flipping any single
captured role's `Result.Success` to false makes the aggregate false.  The
law does not extend from captured to launched roles: a launched
intermediate whose Result misses the 5-second collection window is absent
from the TestResult and cannot block success (see the counterexample
above). -/
theorem aggregate_success_law (tr : TestResult) (slot : RoleSlot)
    (hc : tr.clientResult.isSome = true) (hs : (slotResult tr slot).isSome = true) :
    (aggregateSuccess tr = true ↔
      ((capturedResults tr).all Result.success = true ∧ tr.error = ""))
    ∧ aggregateSuccess (failSlot tr slot) = false := by
  constructor
  · obtain ⟨c, hcr⟩ := Option.isSome_iff_exists.mp hc
    cases hsres : tr.serverResult <;> cases hires : tr.intermediateResult <;>
      cases hi1 : tr.intermediate1Result <;> cases hi2 : tr.intermediate2Result <;>
      simp [aggregateSuccess, capturedResults, optRoleOk, hcr, hsres, hires, hi1, hi2,
        List.all_cons, Bool.and_eq_true, beq_iff_eq, and_assoc]
  · obtain ⟨r, hr⟩ := Option.isSome_iff_exists.mp hs
    cases slot <;>
      simp_all [slotResult, failSlot, aggregateSuccess, optRoleOk]

/-- Witness for C1 at a concrete TestResult with captured client and server
Results, flipping the server slot. -/
theorem aggregate_success_law_witness :
    (aggWitTR.clientResult.isSome = true ∧ (slotResult aggWitTR .server).isSome = true)
    ∧ ((aggregateSuccess aggWitTR = true ↔
        ((capturedResults aggWitTR).all Result.success = true ∧ aggWitTR.error = ""))
      ∧ aggregateSuccess (failSlot aggWitTR .server) = false) :=
  ⟨⟨by decide, by decide⟩, aggregate_success_law aggWitTR .server (by decide) (by decide)⟩

/-- C3 counterexample: `BuildCommand` is NOT a pure function of the
configuration alone: with two recognized parameter keys, two iteration
orders — both permutations of the effective args map's key set — yield
different command text on an identical config. -/
theorem build_command_determinism_cex :
    (["size", "iterations"].Perm (keysOf cfgDetCex.GetEffectiveArgs)
      ∧ ["iterations", "size"].Perm (keysOf cfgDetCex.GetEffectiveArgs))
    ∧ (NewIbSendBwRunner "").BuildCommand cfgDetCex ["size", "iterations"] []
        = "ib_send_bw -s 32768 -n 1000"
    ∧ (NewIbSendBwRunner "").BuildCommand cfgDetCex ["iterations", "size"] []
        = "ib_send_bw -n 1000 -s 32768"
    ∧ (NewIbSendBwRunner "").BuildCommand cfgDetCex ["size", "iterations"] []
        ≠ (NewIbSendBwRunner "").BuildCommand cfgDetCex ["iterations", "size"] [] := by
  refine ⟨⟨by decide, by decide⟩, by decide, by decide, by decide⟩

/-- C3 (amended): `BuildCommand` is deterministic given the iteration order
of the effective args map: for a fixed args order the command text of both
shipped runners does not depend on the env map's iteration order (the env
prefix sorts its keys), so two calls differ at most in the order of the
parameter flags. -/
theorem build_command_determinism_amended (rb : IbSendBwRunner) (ri : Iperf3Runner)
    (config : Config) (argOrder eo1 eo2 : List String) (h : eo1.Perm eo2) :
    rb.BuildCommand config argOrder eo1 = rb.BuildCommand config argOrder eo2
    ∧ ri.BuildCommand config argOrder eo1 = ri.BuildCommand config argOrder eo2 := by
  have hp := buildEnvPfx_perm config h
  constructor
  · simp only [IbSendBwRunner.BuildCommand, hp]
  · simp only [Iperf3Runner.BuildCommand, hp]

/-- Witness for C3 (amended) at a concrete config with a two-key env map. -/
theorem build_command_determinism_amended_witness :
    (["B", "A"] : List String).Perm ["A", "B"]
    ∧ ((NewIbSendBwRunner "").BuildCommand cfgDetWit [] ["B", "A"]
        = (NewIbSendBwRunner "").BuildCommand cfgDetWit [] ["A", "B"]
      ∧ (NewIperf3Runner "").BuildCommand cfgDetWit [] ["B", "A"]
        = (NewIperf3Runner "").BuildCommand cfgDetWit [] ["A", "B"]) :=
  ⟨by decide, build_command_determinism_amended (NewIbSendBwRunner "") (NewIperf3Runner "")
      cfgDetWit [] ["B", "A"] ["A", "B"] (by decide)⟩

/-- C4: Effective-config resolution: for role "client" ("server") every key
found in the overlay map resolves to the overlay's value and every other key
to the general value (overlay-only keys included); for role "intermediate"
the effective maps agree with the general maps on every key. -/
theorem effective_args_env_resolution (c : Config) (k : String)
    (ha : NodupKeys c.args) (hsa : NodupKeys c.serverArgs) (hca : NodupKeys c.clientArgs)
    (he : NodupKeys c.env) (hse : NodupKeys c.serverEnv) (hce : NodupKeys c.clientEnv) :
    (c.role = "client" →
      lookupKV k c.GetEffectiveArgs = orElseO (lookupKV k c.clientArgs) (lookupKV k c.args)
      ∧ lookupKV k c.GetEffectiveEnv = orElseO (lookupKV k c.clientEnv) (lookupKV k c.env))
    ∧ (c.role = "server" →
      lookupKV k c.GetEffectiveArgs = orElseO (lookupKV k c.serverArgs) (lookupKV k c.args)
      ∧ lookupKV k c.GetEffectiveEnv = orElseO (lookupKV k c.serverEnv) (lookupKV k c.env))
    ∧ (c.role = "intermediate" →
      lookupKV k c.GetEffectiveArgs = lookupKV k c.args
      ∧ lookupKV k c.GetEffectiveEnv = lookupKV k c.env) := by
  refine ⟨?_, ?_, ?_⟩
  · intro hrole
    have h1 : c.roleArgs = c.clientArgs := by simp [Config.roleArgs, hrole]
    have h2 : c.roleEnv = c.clientEnv := by simp [Config.roleEnv, hrole]
    constructor
    · unfold Config.GetEffectiveArgs
      rw [h1, lookupKV_insertAllKV k c.clientArgs _ hca, lookupKV_copy k c.args ha]
    · unfold Config.GetEffectiveEnv
      rw [h2, lookupKV_insertAllKV k c.clientEnv _ hce, lookupKV_copy k c.env he]
  · intro hrole
    have h1 : c.roleArgs = c.serverArgs := by simp [Config.roleArgs, hrole]
    have h2 : c.roleEnv = c.serverEnv := by simp [Config.roleEnv, hrole]
    constructor
    · unfold Config.GetEffectiveArgs
      rw [h1, lookupKV_insertAllKV k c.serverArgs _ hsa, lookupKV_copy k c.args ha]
    · unfold Config.GetEffectiveEnv
      rw [h2, lookupKV_insertAllKV k c.serverEnv _ hse, lookupKV_copy k c.env he]
  · intro hrole
    have h1 : c.roleArgs = [] := by simp [Config.roleArgs, hrole]
    have h2 : c.roleEnv = [] := by simp [Config.roleEnv, hrole]
    constructor
    · unfold Config.GetEffectiveArgs
      rw [h1]
      exact lookupKV_copy k c.args ha
    · unfold Config.GetEffectiveEnv
      rw [h2]
      exact lookupKV_copy k c.env he

/-- Witness for C4 at the specification's own example: general
`{iterations:1000, ib_dev:"mlx5_0"}`, client overlay `{iterations:500}`. -/
theorem effective_args_env_resolution_witness :
    resolveWitCfg.role = "client"
    ∧ lookupKV "iterations" resolveWitCfg.GetEffectiveArgs
        = orElseO (lookupKV "iterations" resolveWitCfg.clientArgs)
            (lookupKV "iterations" resolveWitCfg.args)
    ∧ lookupKV "iterations" resolveWitCfg.GetEffectiveArgs = some (.int 500)
    ∧ lookupKV "ib_dev" resolveWitCfg.GetEffectiveArgs = some (.str "mlx5_0") :=
  ⟨rfl,
   ((effective_args_env_resolution resolveWitCfg "iterations" (by decide) (by decide)
      (by decide) (by decide) (by decide) (by decide)).1 rfl).1,
   by decide, by decide⟩

/-- C5 counterexample: a non-zero but negative test-level duration does NOT
override the host-level duration — `MergeRunnerConfig` overrides only when
the test-level value is positive, refuting "exactly when non-zero". -/
theorem merge_runner_config_cex :
    mergeCexTest.duration ≠ 0
    ∧ (MergeRunnerConfig (some mergeCexHost) (some mergeCexTest)).duration
        = mergeCexHost.duration
    ∧ (MergeRunnerConfig (some mergeCexHost) (some mergeCexTest)).duration
        ≠ mergeCexTest.duration := by
  refine ⟨by decide, by decide, by decide⟩

/-- C5 (amended): when both configs are present, `MergeRunnerConfig` takes
the test-level duration and port exactly when positive (host retained
otherwise), the test-level target address, management address, and role
exactly when non-empty, and merges all six parameter/environment maps
key-by-key with test-level entries winning. -/
theorem merge_runner_config_amended (h t : Config) (k : String)
    (ha1 : NodupKeys h.args) (ha2 : NodupKeys t.args)
    (he1 : NodupKeys h.env) (he2 : NodupKeys t.env)
    (hsa1 : NodupKeys h.serverArgs) (hsa2 : NodupKeys t.serverArgs)
    (hca1 : NodupKeys h.clientArgs) (hca2 : NodupKeys t.clientArgs)
    (hse1 : NodupKeys h.serverEnv) (hse2 : NodupKeys t.serverEnv)
    (hce1 : NodupKeys h.clientEnv) (hce2 : NodupKeys t.clientEnv) :
    (MergeRunnerConfig (some h) (some t)).duration
        = (if t.duration > 0 then t.duration else h.duration)
    ∧ (MergeRunnerConfig (some h) (some t)).host
        = (if t.host ≠ "" then t.host else h.host)
    ∧ (MergeRunnerConfig (some h) (some t)).targetHost
        = (if t.targetHost ≠ "" then t.targetHost else h.targetHost)
    ∧ (MergeRunnerConfig (some h) (some t)).port
        = (if t.port > 0 then t.port else h.port)
    ∧ (MergeRunnerConfig (some h) (some t)).role
        = (if t.role ≠ "" then t.role else h.role)
    ∧ lookupKV k (MergeRunnerConfig (some h) (some t)).args
        = orElseO (lookupKV k t.args) (lookupKV k h.args)
    ∧ lookupKV k (MergeRunnerConfig (some h) (some t)).env
        = orElseO (lookupKV k t.env) (lookupKV k h.env)
    ∧ lookupKV k (MergeRunnerConfig (some h) (some t)).serverArgs
        = orElseO (lookupKV k t.serverArgs) (lookupKV k h.serverArgs)
    ∧ lookupKV k (MergeRunnerConfig (some h) (some t)).clientArgs
        = orElseO (lookupKV k t.clientArgs) (lookupKV k h.clientArgs)
    ∧ lookupKV k (MergeRunnerConfig (some h) (some t)).serverEnv
        = orElseO (lookupKV k t.serverEnv) (lookupKV k h.serverEnv)
    ∧ lookupKV k (MergeRunnerConfig (some h) (some t)).clientEnv
        = orElseO (lookupKV k t.clientEnv) (lookupKV k h.clientEnv) := by
  refine ⟨rfl, rfl, rfl, rfl, rfl, ?_, ?_, ?_, ?_, ?_, ?_⟩
  · show lookupKV k (insertAllKV (insertAllKV [] h.args) t.args)
        = orElseO (lookupKV k t.args) (lookupKV k h.args)
    rw [lookupKV_insertAllKV k t.args _ ha2, lookupKV_copy k h.args ha1]
  · show lookupKV k (insertAllKV (insertAllKV [] h.env) t.env)
        = orElseO (lookupKV k t.env) (lookupKV k h.env)
    rw [lookupKV_insertAllKV k t.env _ he2, lookupKV_copy k h.env he1]
  · show lookupKV k (insertAllKV (insertAllKV [] h.serverArgs) t.serverArgs)
        = orElseO (lookupKV k t.serverArgs) (lookupKV k h.serverArgs)
    rw [lookupKV_insertAllKV k t.serverArgs _ hsa2, lookupKV_copy k h.serverArgs hsa1]
  · show lookupKV k (insertAllKV (insertAllKV [] h.clientArgs) t.clientArgs)
        = orElseO (lookupKV k t.clientArgs) (lookupKV k h.clientArgs)
    rw [lookupKV_insertAllKV k t.clientArgs _ hca2, lookupKV_copy k h.clientArgs hca1]
  · show lookupKV k (insertAllKV (insertAllKV [] h.serverEnv) t.serverEnv)
        = orElseO (lookupKV k t.serverEnv) (lookupKV k h.serverEnv)
    rw [lookupKV_insertAllKV k t.serverEnv _ hse2, lookupKV_copy k h.serverEnv hse1]
  · show lookupKV k (insertAllKV (insertAllKV [] h.clientEnv) t.clientEnv)
        = orElseO (lookupKV k t.clientEnv) (lookupKV k h.clientEnv)
    rw [lookupKV_insertAllKV k t.clientEnv _ hce2, lookupKV_copy k h.clientEnv hce1]

/-- Witness for C5 (amended) at concrete configs: positive test duration
wins, a shared parameter key takes the test value, a host-only key passes
through. -/
theorem merge_runner_config_amended_witness :
    (MergeRunnerConfig (some mergeWitHost) (some mergeWitTest)).duration = 30
    ∧ lookupKV "x" (MergeRunnerConfig (some mergeWitHost) (some mergeWitTest)).args
        = some (.int 9)
    ∧ lookupKV "y" (MergeRunnerConfig (some mergeWitHost) (some mergeWitTest)).args
        = some (.int 2) := by
  have hthm := merge_runner_config_amended mergeWitHost mergeWitTest "x" (by decide)
    (by decide) (by decide) (by decide) (by decide) (by decide) (by decide) (by decide)
    (by decide) (by decide) (by decide) (by decide)
  refine ⟨?_, ?_, by decide⟩
  · rw [hthm.1]; decide
  · rw [hthm.2.2.2.2.2.1]; decide

/-- C6: Timeout boundary of the two-node executor.  (a) If the client call
does not return before the scenario deadline, the TestResult the run records
carries a non-empty error containing "timed out"; no role Result had been
captured before expiry on that path, and indeed none is discarded.  (b) If
the client returned but the deadline expires while waiting for the server,
the error is "test timed out" and the already-captured client Result is
preserved in the TestResult. -/
theorem timeout_boundary (serverOut : RemoteOutcome) (serverFin : Bool)
    (clientRes : Result) (scen clientCmd serverCmd : String) :
    ((runAllTestsEntry scen
        (ExecuteTestTwoNodeM scen clientCmd serverCmd .deadline serverOut serverFin)).error
        ≠ ""
      ∧ strContains
          (runAllTestsEntry scen
            (ExecuteTestTwoNodeM scen clientCmd serverCmd .deadline serverOut serverFin)).error
          "timed out" = true
      ∧ capturedResults (runAllTestsEntry scen
          (ExecuteTestTwoNodeM scen clientCmd serverCmd .deadline serverOut serverFin)) = [])
    ∧ ((runAllTestsEntry scen
          (ExecuteTestTwoNodeM scen clientCmd serverCmd (.ok clientRes) serverOut false)).error
        = "test timed out"
      ∧ (runAllTestsEntry scen
          (ExecuteTestTwoNodeM scen clientCmd serverCmd (.ok clientRes) serverOut false)).clientResult
        = some clientRes
      ∧ strContains "test timed out" "timed out" = true) := by
  have he : (runAllTestsEntry scen
      (ExecuteTestTwoNodeM scen clientCmd serverCmd .deadline serverOut serverFin)).error
      = "client execution failed: SSH command execution failed: " ++ sshTimeoutMsg := rfl
  refine ⟨⟨?_, ?_, rfl⟩, rfl, rfl, by decide⟩
  · rw [he]; decide
  · rw [he]; decide

/-- C7: iperf3 metric extraction.  On the sample captured text containing
"934 Mbits/sec" (no JSON markers) ParseMetrics leaves bandwidth_mbps = 934
and bandwidth_bps = 934000000 in the metric map; and on any Result whose
output contains no "Mbits/sec" or "Gbits/sec" text and lacks the JSON
markers, ParseMetrics returns no error and leaves the Result (in particular
the metric map) completely unchanged — no bandwidth keys are added. -/
theorem iperf3_parse_metrics_roundtrip (r : Iperf3Runner) (res : Result)
    (h1 : containsSub res.output.toList mbitsPat = false)
    (h2 : containsSub res.output.toList gbitsPat = false)
    (h3 : containsSub res.output.toList jsonStartPat = false
          ∨ containsSub res.output.toList jsonEndPat = false) :
    (strContains sampleIperf3Result.output "934 Mbits/sec" = true
      ∧ lookupKV "bandwidth_mbps" sampleParsedMetrics = some (.num ⟨934, 1⟩)
      ∧ lookupKV "bandwidth_bps" sampleParsedMetrics = some (.num ⟨934000000, 1⟩))
    ∧ r.ParseMetrics res = .ok res := by
  constructor
  · refine ⟨by decide, by decide, by decide⟩
  · have hguard : (containsSub res.output.toList jsonStartPat
        && containsSub res.output.toList jsonEndPat) = false := by
      rcases h3 with h | h
      · rw [h]; rfl
      · rw [h]; exact Bool.and_false _
    have hne : ¬((containsSub res.output.toList jsonStartPat
        && containsSub res.output.toList jsonEndPat) = true) := by
      rw [hguard]; decide
    have hpt := parseTextMetrics_id res.output.toList res.metrics h1 h2
    simp only [Iperf3Runner.ParseMetrics]
    rw [if_neg hne, hpt]

/-- Witness for C7 on a concrete pattern-free output. -/
theorem iperf3_parse_metrics_roundtrip_witness :
    (containsSub noPatternResult.output.toList mbitsPat = false
      ∧ containsSub noPatternResult.output.toList gbitsPat = false
      ∧ containsSub noPatternResult.output.toList jsonStartPat = false)
    ∧ ((strContains sampleIperf3Result.output "934 Mbits/sec" = true
        ∧ lookupKV "bandwidth_mbps" sampleParsedMetrics = some (.num ⟨934, 1⟩)
        ∧ lookupKV "bandwidth_bps" sampleParsedMetrics = some (.num ⟨934000000, 1⟩))
      ∧ (NewIperf3Runner "").ParseMetrics noPatternResult = .ok noPatternResult) :=
  ⟨⟨by decide, by decide, by decide⟩,
   iperf3_parse_metrics_roundtrip (NewIperf3Runner "") noPatternResult
     (by decide) (by decide) (Or.inl (by decide))⟩

/-- C8 counterexample: `CreateWithPath` on an unregistered name returns the
error `runner <name> not found`, which does NOT list the registered runner
names (iperf3 is registered yet absent from the message; the listing happens
in the CLI caller, not in Create). -/
theorem create_runner_error_cex :
    CreateWithPath defaultRegistry "nonexistent" "" = .error "runner nonexistent not found"
    ∧ lookupKV "iperf3" defaultRegistry ≠ none
    ∧ strContains "runner nonexistent not found" "iperf3" = false
    ∧ strContains "runner nonexistent not found" "ib_send_bw" = false := by
  refine ⟨by decide, by decide, by decide, by decide⟩

/-- C8 (amended): for every name absent from the registry, `CreateWithPath`
returns no runner and the error `runner <name> not found` (with no listing
of registered names); for every registered name it returns the freshly
constructed instance, with the caller-supplied executable path applied
exactly when non-empty. -/
theorem create_runner_amended (registry : List (String × RunnerInst))
    (name binaryPath : String) :
    (lookupKV name registry = none →
      CreateWithPath registry name binaryPath
        = .error ("runner " ++ name ++ " not found"))
    ∧ (∀ r, lookupKV name registry = some r →
      CreateWithPath registry name binaryPath
        = .ok (if binaryPath = "" then r else r.SetExecutablePath binaryPath)) := by
  constructor
  · intro hnone
    simp [CreateWithPath, hnone]
  · intro r hr
    simp [CreateWithPath, hr]

/-- Witness for C8 (amended): an unregistered and a registered name against
the shipped registry, with a path override. -/
theorem create_runner_amended_witness :
    CreateWithPath defaultRegistry "zzz" "" = .error "runner zzz not found"
    ∧ CreateWithPath defaultRegistry "iperf3" "/opt/iperf3"
        = .ok (.iperf3 ⟨"/opt/iperf3"⟩) := by
  constructor
  · exact (create_runner_amended defaultRegistry "zzz" "").1 (by decide)
  · have h := (create_runner_amended defaultRegistry "iperf3" "/opt/iperf3").2
      (.iperf3 (NewIperf3Runner "")) (by decide)
    rw [h]; decide

/-- C10: the environment-variable prefix equals the specification-described
canonical form — effective env entries as KEY=value pairs in ascending
alphabetical key order, single spaces between pairs, one trailing space,
values single-quoted (with embedded-quote escaping) when they contain
special characters — independent of the map iteration order; and the prefix
is empty exactly when the effective environment map is empty. -/
theorem env_prefix_canonical (config : Config) (envOrder : List String)
    (h : envOrder.Perm (keysOf config.GetEffectiveEnv)) :
    buildEnvPfx config envOrder = specEnvPfx config.GetEffectiveEnv
    ∧ (buildEnvPfx config envOrder = "" ↔ config.GetEffectiveEnv = []) := by
  by_cases hemp : config.GetEffectiveEnv = []
  · constructor
    · simp [buildEnvPfx, specEnvPfx, hemp]
    · simp [buildEnvPfx, hemp]
  · have hne : config.GetEffectiveEnv.isEmpty = false := by
      rcases hc : config.GetEffectiveEnv with _ | ⟨a, l⟩
      · exact absurd hc hemp
      · rfl
    constructor
    · simp only [buildEnvPfx, specEnvPfx, hne, Bool.false_eq_true, if_false]
      rw [if_neg hemp, sortStrings_perm_eq h]
    · simp only [buildEnvPfx, hne, Bool.false_eq_true, if_false]
      constructor
      · intro habs
        exfalso
        have hlen := congrArg String.length habs
        rw [String.length_append] at hlen
        simp only [show (" " : String).length = 1 from rfl,
          show ("" : String).length = 0 from rfl] at hlen
        omega
      · intro hc
        exact absurd hc hemp

/-- Witness for C10 at a concrete config: one plain value, one value needing
quoting; keys arrive unsorted from the map iteration. -/
theorem env_prefix_canonical_witness :
    (["B", "A"] : List String).Perm (keysOf envWitCfg.GetEffectiveEnv)
    ∧ buildEnvPfx envWitCfg ["B", "A"] = specEnvPfx envWitCfg.GetEffectiveEnv
    ∧ (buildEnvPfx envWitCfg ["B", "A"] = "" ↔ envWitCfg.GetEffectiveEnv = [])
    ∧ buildEnvPfx envWitCfg ["B", "A"]
        = "A=x B=" ++ String.mk [squoteC] ++ "b v" ++ String.mk [squoteC] ++ " " := by
  refine ⟨by decide, (env_prefix_canonical envWitCfg ["B", "A"] (by decide)).1,
    (env_prefix_canonical envWitCfg ["B", "A"] (by decide)).2, by decide⟩
